import Mathlib

/-!
Shallow embedding of the Indonesia Supreme Court LLM agent repository.

The embedding covers:
- the retrieval tool's document deduplication and rendering
  (src/src/agent.py, _get_relevant_documents);
- the grading edge, the generate node and the workflow graph construction
  (src/src/agent.py, grade_documents / generate / get_workflow);
- the retry-wrapped LLM call helper (src/utility/llm.py, call_model);
- the HTTP server's rate-limit middleware and chat endpoint
  (src/main/http_server/app.py);
- the document indexer's pagination loop
  (src/main/cli/index_court_docs_summary_content.py);
- the append-style message reducer used for per-thread conversation state.

Hosted LLM calls are modelled as oracle parameters: each node takes the
structured model output as an argument, since the repository only supplies
prompts, routing and post-processing around those calls.
-/

namespace SCAgent

/-- A chat message as the agent state carries it: an identifier, string
content, the tool calls attached to an assistant reply, and the
additional keyword arguments dictionary (only list-of-string values are
ever stored there by this repository, namely the references list). -/
structure Msg where
  id : String
  content : String
  tool_calls : List String := []
  additional_kwargs : List (String × List String) := []
deriving Repr, DecidableEq

/-- A document as the vector-store retriever returns it: its metadata carries
the decision number and the full formatted summary (set by the indexer). -/
structure RetrievedDoc where
  decision_number : String
  full_summary : String
deriving Repr, DecidableEq

/-- A langchain Document built by the retrieval tool: page content plus the
decision_doc_id metadata entry. -/
structure VDoc where
  page_content : String
  decision_doc_id : String
deriving Repr, DecidableEq

/-- The loop body of _get_relevant_documents (src/src/agent.py lines 64-79):
walk the retrieved documents, skip any whose decision_number was already
seen, and otherwise emit a Document whose page content is the header line,
a blank line and the full summary. -/
def uniqueDocsLoop : List RetrievedDoc → List String → List VDoc
  | [], _ => []
  | d :: rest, seen =>
    if d.decision_number ∈ seen then
      uniqueDocsLoop rest seen
    else
      { page_content :=
          "Nomor Dokumen Putusan: " ++ d.decision_number ++ "\n\n" ++ d.full_summary,
        decision_doc_id := d.decision_number }
        :: uniqueDocsLoop rest (seen ++ [d.decision_number])

/-- format_document with the default document prompt, which renders just the
page content (create_retriever_tool passes no document_prompt, so the
default template applies). -/
def formatDocument (d : VDoc) : String := d.page_content

/-- _get_relevant_documents (src/src/agent.py lines 56-83), as a function of
the retriever's output list: deduplicate, render, and join the rendered
documents with the document separator. -/
def getRelevantDocuments (document_separator : String) (docs : List RetrievedDoc) :
    String :=
  String.intercalate document_separator ((uniqueDocsLoop docs []).map formatDocument)

/-- Specification-side rendering of one retrieved document: the header
followed by the decision number, a blank line, and the full summary. -/
def renderRetrieved (d : RetrievedDoc) : String :=
  "Nomor Dokumen Putusan: " ++ d.decision_number ++ "\n\n" ++ d.full_summary

/-- Specification-side deduplication: keep the first document for each
decision number, in retrieval order. -/
def keepFirstByNumber : List RetrievedDoc → List RetrievedDoc
  | [] => []
  | d :: rest =>
    d :: keepFirstByNumber
      (rest.filter (fun e => decide (e.decision_number ≠ d.decision_number)))
termination_by l => l.length
decreasing_by
  simp only [List.length_cons]
  exact Nat.lt_succ_of_le (List.length_filter_le _ _)

/-- The structured output the grading prompt requests: a binary_score field,
here as a function of the question and the document context, standing for
the hosted model's reply. -/
structure GradeLLM where
  binary_score : String → String → String

/-- grade_documents (src/src/agent.py lines 187-242): grade the content of
the last message (the retrieved documents) against the content of the first
message (the question); answer "generate" when the structured binary_score
is the string "yes" and "rewrite" otherwise. Indexing an empty message list
raises in Python, modelled as none. -/
def gradeDocuments (llm : GradeLLM) (messages : List Msg) : Option String :=
  match messages.head?, messages.getLast? with
  | some first, some last =>
    some (if llm.binary_score first.content last.content = "yes"
          then "generate" else "rewrite")
  | _, _ => none

/-- A grading oracle that always scores "yes". -/
def gradeYesLLM : GradeLLM := ⟨fun _ _ => "yes"⟩

/-- The langgraph START sentinel node name. -/
def START : String := "__start__"

/-- The langgraph END sentinel node name. -/
def END : String := "__end__"

/-- tools_condition from langgraph.prebuilt, which get_workflow wires in as
the routing condition out of the agent node: it answers "tools" when the
last message of the state carries at least one tool call and END otherwise;
an empty state raises, modelled as none. Modelled from the library it is
imported from, since the repository only wires it into the graph. -/
def tools_condition (messages : List Msg) : Option String :=
  match messages.getLast? with
  | some m => some (if m.tool_calls ≠ [] then "tools" else END)
  | none => none

/-- One conditional-edge registration: the source node, the routing condition
over the state's messages, and the optional path map translating condition
outputs to node names. -/
structure CondEdge where
  source : String
  condition : List Msg → Option String
  path_map : Option (List (String × String))

/-- The langgraph StateGraph builder as the data get_workflow accumulates:
registered nodes, unconditional edges, and conditional edges. -/
structure StateGraph where
  nodes : List String
  edges : List (String × String)
  conditional_edges : List CondEdge

def StateGraph.empty : StateGraph := ⟨[], [], []⟩

def StateGraph.add_node (g : StateGraph) (name : String) : StateGraph :=
  { g with nodes := g.nodes ++ [name] }

def StateGraph.add_edge (g : StateGraph) (a b : String) : StateGraph :=
  { g with edges := g.edges ++ [(a, b)] }

def StateGraph.add_conditional_edges (g : StateGraph) (src : String)
    (cond : List Msg → Option String)
    (pm : Option (List (String × String))) : StateGraph :=
  { g with conditional_edges := g.conditional_edges ++ [⟨src, cond, pm⟩] }

/-- get_workflow (src/src/agent.py lines 367-403): four nodes, the entry edge
from START to agent, a conditional edge out of agent driven by
tools_condition with the path map sending "tools" to retrieve and END to
END, a conditional edge out of retrieve driven by grade_documents with no
path map (its outputs "generate" and "rewrite" name the target nodes
directly), and unconditional edges generate-to-END and rewrite-to-agent. -/
def get_workflow (gradeLLM : GradeLLM) : StateGraph :=
  StateGraph.empty
    |>.add_node "agent"
    |>.add_node "retrieve"
    |>.add_node "rewrite"
    |>.add_node "generate"
    |>.add_edge START "agent"
    |>.add_conditional_edges "agent" tools_condition
        (some [("tools", "retrieve"), (END, END)])
    |>.add_conditional_edges "retrieve" (gradeDocuments gradeLLM) none
    |>.add_edge "generate" END
    |>.add_edge "rewrite" "agent"

/-- Apply a conditional edge's path map to the condition's output: with no
path map the output already names the target node, otherwise look the
output up in the map. -/
def applyPathMap (pm : Option (List (String × String))) (r : String) :
    Option String :=
  match pm with
  | none => some r
  | some m => (m.find? (fun p => p.1 == r)).map (fun p => p.2)

/-- The node the graph moves to from src given the state's messages,
following the conditional edge registered for src. -/
def routeFrom (g : StateGraph) (src : String) (messages : List Msg) :
    Option String :=
  match g.conditional_edges.find? (fun ce => ce.source == src) with
  | some ce => (ce.condition messages).bind (applyPathMap ce.path_map)
  | none => none

/-- The structured output the generate prompt requests (AgentResponse in
src/src/agent.py lines 44-53): the final answer and the list of referenced
decision numbers. -/
structure AgentResponse where
  response : String
  court_document_sources : List String
deriving Repr, DecidableEq

/-- The single quotation mark character (code point 39), as Python repr
wraps list elements in it. -/
def pyQuote : String := String.singleton (Char.ofNat 39)

/-- Python rendering of a list of strings inside an f-string: brackets,
comma-space separators, each element wrapped in single quotation marks.
Repr-level escaping of quotation marks embedded in an element is not
modelled; decision numbers contain none. -/
def pyListRepr (xs : List String) : String :=
  "[" ++ String.intercalate ", " (xs.map (fun s => pyQuote ++ s ++ pyQuote)) ++ "]"

/-- Lookup in the additional keyword arguments dictionary of a message. -/
def lookupKwarg (kwargs : List (String × List String)) (key : String) :
    Option (List String) :=
  (kwargs.find? (fun p => p.1 == key)).map (fun p => p.2)

/-- The generate node's post-processing (src/src/agent.py lines 354-364), as
a function of the structured model output: append the Referensi section to
the response when the source list is non-empty, and emit an AIMessage
carrying the source list under the references keyword argument. -/
def generate (result : AgentResponse) : Msg :=
  let references := result.court_document_sources
  let response := result.response
  let response :=
    if references ≠ [] then
      response ++ "\n\nReferensi:\n\n" ++ pyListRepr references
    else response
  { id := "", content := response, tool_calls := [],
    additional_kwargs := [("references", references)] }

/-- The exception taxonomy call_model's retry decorator distinguishes
(src/utility/llm.py lines 10-16 and 27-40): the five litellm exception
classes named in retry_if_exception_type, and any other exception. -/
inductive LLMExc
  | timeout
  | rateLimitError
  | apiConnectionError
  | apiError
  | serviceUnavailableError
  | otherExc (name : String)
deriving Repr, DecidableEq

/-- retry_if_exception_type over the tuple (Timeout, RateLimitError,
APIConnectionError, APIError, ServiceUnavailableError): exactly the five
named classes are retried. -/
def retryableExc : LLMExc → Bool
  | .otherExc _ => false
  | _ => true

/-- tenacity wait_exponential: the multiplier times two to the attempt
number, clamped below by the configured minimum and above by the maximum. -/
def wait_exponential (multiplier minWait maxWait attempt : Nat) : Nat :=
  max minWait (min (multiplier * 2 ^ attempt) maxWait)

/-- The wait the decorator of call_model configures:
wait_exponential(multiplier=1, min=5, max=10). -/
def callModelWait (attempt : Nat) : Nat := wait_exponential 1 5 10 attempt

/-- The tenacity retry driver around call_model with stop_after_attempt(5)
and reraise=True: run the attempt; on success stop; on a retryable
exception before the fifth attempt try again; otherwise re-raise the
exception just caught. The outcome argument gives each attempt's result of
the underlying litellm completion call; the returned number is the attempt
on which the loop stopped. -/
def retryLoop {α : Type} (outcome : Nat → Except LLMExc α) (attempt : Nat) :
    Except LLMExc α × Nat :=
  match outcome attempt with
  | .ok v => (.ok v, attempt)
  | .error e =>
    if h : retryableExc e = true ∧ attempt < 5 then
      retryLoop outcome (attempt + 1)
    else
      (.error e, attempt)
termination_by 5 - attempt
decreasing_by
  exact Nat.sub_lt_sub_left h.2 (Nat.lt_succ_self attempt)

/-- call_model (src/utility/llm.py lines 27-50) as its retry behaviour:
start at attempt one and return the final result. -/
def call_model {α : Type} (outcome : Nat → Except LLMExc α) : Except LLMExc α :=
  (retryLoop outcome 1).1

/-- The attempt on which call_model stopped. -/
def callModelAttempts {α : Type} (outcome : Nat → Except LLMExc α) : Nat :=
  (retryLoop outcome 1).2

/-- One step of the add_messages reducer declared on AgentState.messages
(src/src/agent.py lines 178-181): a message whose id already occurs in the
history replaces that entry, and any other message is appended. Modelled
from the langgraph reducer the annotation names. -/
def upsertMessage (acc : List Msg) (m : Msg) : List Msg :=
  if acc.any (fun x => x.id == m.id) then
    acc.map (fun x => if x.id == m.id then m else x)
  else acc ++ [m]

/-- The add_messages reducer over a batch of update messages. -/
def add_messages (left right : List Msg) : List Msg :=
  right.foldl upsertMessage left

/-- The MemorySaver checkpointer keyed by thread identifier, as the map from
thread id to the saved message history (empty for a fresh thread). -/
def Checkpoints : Type := String → List Msg

/-- A fresh checkpointer with no saved threads. -/
def emptyCheckpoints : Checkpoints := fun _ => []

/-- Save a thread's history in the checkpointer. -/
def saveThread (cps : Checkpoints) (thread_id : String) (msgs : List Msg) :
    Checkpoints :=
  fun t => if t == thread_id then msgs else cps t

/-- One invocation of the compiled graph on a thread
(src/main/http_server/app.py lines 21-23 and 153-165): the checkpointer
restores the thread's saved history, the input and node updates are folded
in through the add_messages reducer, and the resulting history is saved
back under the same thread id. newMsgs is the batch of messages this turn
adds (the user input followed by the node outputs). -/
def invokeThread (cps : Checkpoints) (thread_id : String) (newMsgs : List Msg) :
    Checkpoints × List Msg :=
  let hist := add_messages (cps thread_id) newMsgs
  (saveThread cps thread_id hist, hist)

/-- The HTTP chat endpoint's response body (ChatbotResponse in
src/main/http_server/app.py lines 107-109). -/
structure ChatbotResponse where
  response : String
  references : List String
deriving Repr, DecidableEq

/-- send_message's response assembly (src/main/http_server/app.py lines
151-174), as a function of the final graph state's messages: take the last
message, answer with its content, and with its references keyword argument
when that key is present and the empty list otherwise. Indexing an empty
message list raises in Python, modelled as none. -/
def send_message (finalMessages : List Msg) : Option ChatbotResponse :=
  match finalMessages.getLast? with
  | none => none
  | some m =>
    let references :=
      match lookupKwarg m.additional_kwargs "references" with
      | some refs => refs
      | none => []
    some { response := m.content, references := references }

/-- A concrete final assistant message carrying a references entry. -/
def refMsg : Msg :=
  { id := "a1", content := "jawaban", tool_calls := [],
    additional_kwargs := [("references", ["123/K/2020"])] }

/-- The per-client-IP counters of RateLimitMiddleware
(src/main/http_server/app.py line 43): each IP maps to the minute it was
last counted in and the number of requests counted there. -/
def RequestCounts : Type := String → Option (Nat × Nat)

/-- A freshly constructed middleware with no counted requests. -/
def emptyRequestCounts : RequestCounts := fun _ => none

/-- Store one IP's counter. -/
def updateCount (counts : RequestCounts) (ip : String) (v : Nat × Nat) :
    RequestCounts :=
  fun k => if k == ip then some v else counts k

/-- What one dispatch of RateLimitMiddleware does with the request: forward
it to the application, or take the rejection branch. That branch evaluates
Response(status_code=429, content=...), but app.py never imports Response,
so Python raises NameError there instead of producing the 429 reply. -/
inductive DispatchOutcome
  | forwarded
  | nameErrorResponseUndefined
deriving Repr, DecidableEq

/-- RateLimitMiddleware.dispatch (src/main/http_server/app.py lines 46-66):
reset the client IP's counter when its stored minute differs from the
current one, initialize it on first sight, increment it, and once the
incremented count exceeds calls_per_minute take the rejection branch
(which raises NameError, see DispatchOutcome) instead of forwarding. -/
def dispatch (calls_per_minute : Nat) (counts : RequestCounts) (ip : String)
    (current_minute : Nat) : RequestCounts × DispatchOutcome :=
  let c1 := match counts ip with
    | some mc =>
      if mc.1 ≠ current_minute then updateCount counts ip (current_minute, 0)
      else counts
    | none => counts
  let c2 := match c1 ip with
    | none => updateCount c1 ip (current_minute, 0)
    | some _ => c1
  let n := (match c2 ip with | some mc => mc.2 | none => 0) + 1
  let c3 := updateCount c2 ip (current_minute, n)
  if n > calls_per_minute then (c3, DispatchOutcome.nameErrorResponseUndefined)
  else (c3, DispatchOutcome.forwarded)

/-- Feed a sequence of requests from one client IP through the middleware,
giving the wall-clock minute of each request, and collect the per-request
outcomes. -/
def runRequests (calls_per_minute : Nat) (counts : RequestCounts) (ip : String) :
    List Nat → RequestCounts × List DispatchOutcome
  | [] => (counts, [])
  | minute :: rest =>
    let step := dispatch calls_per_minute counts ip minute
    let next := runRequests calls_per_minute step.1 ip rest
    (next.1, step.2 :: next.2)

/-- One row of the cases table (Cases in
src/main/cli/index_court_docs_summary_content.py lines 19-26); the text
columns are nullable. -/
structure CaseRow where
  id : String
  source : String
  decision_number : String
  summary : Option String
  summary_en : Option String
  summary_formatted : Option String
  summary_formatted_en : Option String
deriving Repr, DecidableEq

/-- The where-clauses of get_paged_docs's query: summary_formatted_en is not
null, and the source is the Indonesia Supreme Court. -/
def casesFilter (table : List CaseRow) : List CaseRow :=
  (table.filter (fun c => c.summary_formatted_en.isSome)).filter
    (fun c => c.source == "Indonesia Supreme Court")

/-- get_paged_docs (src/main/cli/index_court_docs_summary_content.py lines
29-39): the filtered rows, offset and limited. -/
def get_paged_docs (table : List CaseRow) (offset limit : Nat) : List CaseRow :=
  ((casesFilter table).drop offset).take limit

/-- A vector-store document the indexer upserts: one text chunk with the
case's decision number and full formatted summary as metadata. -/
structure IndexedDoc where
  page_content : String
  decision_number : String
  full_summary : String
deriving Repr, DecidableEq

/-- Chunk one case (src/main/cli/index_court_docs_summary_content.py lines
99-111): split_text(case.summary_formatted), each chunk becoming a Document
with the case's decision_number and full summary as metadata. Passing a
null summary_formatted into the splitter raises TypeError. The splitter is
a langchain library class and is taken as a parameter. -/
def chunkCase (split : String → List String) (c : CaseRow) :
    Except String (List IndexedDoc) :=
  match c.summary_formatted with
  | none => .error "TypeError: split_text received None"
  | some text =>
    .ok ((split text).map (fun t =>
      { page_content := t, decision_number := c.decision_number,
        full_summary := text }))

/-- The inner for-loop over one page: chunk and upsert every case of the
page, stopping at the first raised exception. -/
def processPage (split : String → List String) :
    List CaseRow → Except String (List IndexedDoc)
  | [] => .ok []
  | c :: rest =>
    match chunkCase split c with
    | .error e => .error e
    | .ok docs =>
      match processPage split rest with
      | .error e => .error e
      | .ok more => .ok (docs ++ more)

/-- The while-loop of main (src/main/cli/index_court_docs_summary_content.py
lines 89-118): fetch a page, stop at the first empty page, otherwise chunk
and upsert every case of the page, advance the offset by the page size and
the indexed count by the number of rows of the page. acc is the list of
documents upserted so far. -/
def indexLoop (split : String → List String) (table : List CaseRow)
    (offset limit indexed_count : Nat) (acc : List IndexedDoc) :
    Except String (Nat × List IndexedDoc) :=
  if h : get_paged_docs table offset limit = [] then
    .ok (indexed_count, acc)
  else
    match processPage split (get_paged_docs table offset limit) with
    | .error e => .error e
    | .ok docs =>
      indexLoop split table (offset + limit) limit
        (indexed_count + (get_paged_docs table offset limit).length) (acc ++ docs)
termination_by (casesFilter table).length - offset
decreasing_by
  rw [get_paged_docs] at h
  have hlim : limit ≠ 0 := by
    intro h0
    rw [h0, List.take_zero] at h
    exact h rfl
  have hdrop : (casesFilter table).drop offset ≠ [] := by
    intro hd
    rw [hd, List.take_nil] at h
    exact h rfl
  have hofs : offset < (casesFilter table).length := by
    by_contra hc
    exact hdrop (List.drop_eq_nil_of_le (Nat.le_of_not_lt hc))
  exact Nat.sub_lt_sub_left hofs
    (Nat.lt_add_of_pos_right (Nat.pos_of_ne_zero hlim))

/-- main (src/main/cli/index_court_docs_summary_content.py lines 44-121):
offset starts at 0, the page size is the fixed limit 5, and the indexed
count starts at 0. -/
def indexMain (split : String → List String) (table : List CaseRow) :
    Except String (Nat × List IndexedDoc) :=
  indexLoop split table 0 5 0 []

/-- Specification-side chunking of one case: the documents main builds for
it when its summary_formatted is present, and none otherwise. -/
def chunkDocs (split : String → List String) (c : CaseRow) : List IndexedDoc :=
  match c.summary_formatted with
  | none => []
  | some text =>
    (split text).map (fun t =>
      { page_content := t, decision_number := c.decision_number,
        full_summary := text })

/-- A selected case row with both summaries present, for the C6 witness. -/
def mkCase (n : Nat) : CaseRow :=
  { id := toString n, source := "Indonesia Supreme Court",
    decision_number := toString n, summary := none, summary_en := none,
    summary_formatted := some "ringkasan", summary_formatted_en := some "summary" }

/-- A six-row table, so the loop takes a full page of five, a page of one,
and then the empty page that stops it. -/
def witnessTable : List CaseRow := (List.range 6).map mkCase

/-- The failing row for C5: summary_formatted_en is non-null, so the query
selects it, but summary_formatted — the field actually chunked — is null. -/
def c5Row : CaseRow :=
  { id := "case-1", source := "Indonesia Supreme Court",
    decision_number := "123 K/Pdt/2020", summary := none, summary_en := none,
    summary_formatted := none, summary_formatted_en := some "English summary" }

/-- Every document kept by keepFirstByNumber comes from the input list. -/
theorem mem_keepFirstByNumber {x : RetrievedDoc} :
    ∀ {l : List RetrievedDoc}, x ∈ keepFirstByNumber l → x ∈ l := by
  intro l
  induction l using keepFirstByNumber.induct with
  | case1 => intro h; simp [keepFirstByNumber] at h
  | case2 d rest ih =>
    intro h
    rw [keepFirstByNumber] at h
    rcases List.mem_cons.mp h with h | h
    · exact h ▸ List.mem_cons_self _ _
    · exact List.mem_cons_of_mem _ (List.mem_of_mem_filter (ih h))

/-- The decision numbers of the documents kept by keepFirstByNumber are
pairwise distinct. -/
theorem keepFirstByNumber_nodup (l : List RetrievedDoc) :
    ((keepFirstByNumber l).map (fun d => d.decision_number)).Nodup := by
  induction l using keepFirstByNumber.induct with
  | case1 => simp [keepFirstByNumber]
  | case2 d rest ih =>
    rw [keepFirstByNumber]
    refine List.nodup_cons.mpr ⟨?_, ih⟩
    intro hmem
    rcases List.mem_map.mp hmem with ⟨e, he, heq⟩
    have := List.of_mem_filter (mem_keepFirstByNumber he)
    simp only [decide_eq_true_eq] at this
    exact this heq

/-- uniqueDocsLoop with an arbitrary seen-list equals keepFirstByNumber on
the input restricted to unseen decision numbers. -/
theorem uniqueDocsLoop_eq_keepFirst (l : List RetrievedDoc) :
    ∀ seen : List String,
      uniqueDocsLoop l seen
        = (keepFirstByNumber
            (l.filter (fun d => decide (d.decision_number ∉ seen)))).map
          (fun d => { page_content := renderRetrieved d,
                      decision_doc_id := d.decision_number }) := by
  induction l with
  | nil => intro seen; simp [uniqueDocsLoop, keepFirstByNumber]
  | cons d rest ih =>
    intro seen
    by_cases hd : d.decision_number ∈ seen
    · rw [uniqueDocsLoop, if_pos hd]
      have hfilter :
          (d :: rest).filter (fun e => decide (e.decision_number ∉ seen))
            = rest.filter (fun e => decide (e.decision_number ∉ seen)) := by
        simp [List.filter_cons, hd]
      rw [hfilter, ih seen]
    · rw [uniqueDocsLoop, if_neg hd]
      have hfilter :
          (d :: rest).filter (fun e => decide (e.decision_number ∉ seen))
            = d :: rest.filter (fun e => decide (e.decision_number ∉ seen)) := by
        simp [List.filter_cons, hd]
      rw [hfilter, keepFirstByNumber, List.map_cons]
      have hpred : ∀ e ∈ rest,
          decide (e.decision_number ∉ seen ++ [d.decision_number])
            = (decide (e.decision_number ≠ d.decision_number)
                && decide (e.decision_number ∉ seen)) := by
        intro e _
        by_cases h1 : e.decision_number ∈ seen <;>
          by_cases h2 : e.decision_number = d.decision_number <;>
            simp [List.mem_append, h1, h2]
      have hrw :
          rest.filter (fun e => decide (e.decision_number ∉ seen ++ [d.decision_number]))
            = (rest.filter (fun e => decide (e.decision_number ∉ seen))).filter
                (fun e => decide (e.decision_number ≠ d.decision_number)) := by
        rw [List.filter_filter]
        exact List.filter_congr hpred
      rw [ih (seen ++ [d.decision_number]), hrw]
      simp [renderRetrieved]

/-- C9: for every list of retrieved documents, the retrieval tool output is
the rendered first-per-decision-number documents joined by the separator,
and the kept decision numbers are pairwise distinct (so each appears at
most once in the output). -/
theorem getRelevantDocuments_spec (document_separator : String)
    (docs : List RetrievedDoc) :
    getRelevantDocuments document_separator docs
        = String.intercalate document_separator
            ((keepFirstByNumber docs).map renderRetrieved)
    ∧ ((keepFirstByNumber docs).map (fun d => d.decision_number)).Nodup := by
  constructor
  · rw [getRelevantDocuments, uniqueDocsLoop_eq_keepFirst]
    have h1 : docs.filter (fun d => decide (d.decision_number ∉ ([] : List String)))
        = docs := by simp
    rw [h1, List.map_map]
    congr 1
  · exact keepFirstByNumber_nodup docs

/-- C2: for every conversation state, grading returns "generate" exactly when
the structured binary_score on (first message content, last message content)
is "yes", and "rewrite" exactly otherwise. -/
theorem gradeDocuments_spec (llm : GradeLLM) (messages : List Msg)
    (h : messages ≠ []) :
    (gradeDocuments llm messages = some "generate"
      ↔ llm.binary_score (messages.head h).content (messages.getLast h).content
          = "yes")
    ∧ (gradeDocuments llm messages = some "rewrite"
      ↔ llm.binary_score (messages.head h).content (messages.getLast h).content
          ≠ "yes") := by
  have h1 : messages.head? = some (messages.head h) := List.head?_eq_head h
  have h2 : messages.getLast? = some (messages.getLast h) :=
    List.getLast?_eq_getLast messages h
  rw [gradeDocuments, h1, h2]
  dsimp only
  by_cases hs : llm.binary_score (messages.head h).content
      (messages.getLast h).content = "yes"
  · rw [if_pos hs]
    exact ⟨⟨fun _ => hs, fun _ => rfl⟩,
      ⟨fun hc => absurd (Option.some.inj hc) (by decide),
       fun hne => absurd hs hne⟩⟩
  · rw [if_neg hs]
    exact ⟨⟨fun hc => absurd (Option.some.inj hc) (by decide),
       fun hyes => absurd hyes hs⟩,
      ⟨fun _ => hs, fun _ => rfl⟩⟩

/-- Witness for C2: on a concrete one-message state and an always-yes score,
grading decides "generate". -/
theorem gradeDocuments_spec_witness :
    gradeDocuments gradeYesLLM [{ id := "1", content := "q" }] = some "generate" :=
  (gradeDocuments_spec gradeYesLLM [{ id := "1", content := "q" }]
    (by decide)).1.mpr rfl

/-- C1: the workflow has exactly the nodes agent, retrieve, rewrite and
generate; its unconditional edges are START-to-agent (execution starts at
agent), generate-to-END and rewrite-to-agent; from agent it routes to
retrieve exactly when the last model reply carries a tool call and to END
otherwise; and from retrieve it routes to generate or rewrite according to
the grading decision. -/
theorem get_workflow_spec (gradeLLM : GradeLLM) :
    (get_workflow gradeLLM).nodes = ["agent", "retrieve", "rewrite", "generate"]
    ∧ (get_workflow gradeLLM).edges
        = [(START, "agent"), ("generate", END), ("rewrite", "agent")]
    ∧ (∀ messages : List Msg, ∀ last, messages.getLast? = some last →
        routeFrom (get_workflow gradeLLM) "agent" messages
          = some (if last.tool_calls ≠ [] then "retrieve" else END))
    ∧ (∀ messages : List Msg, ∀ first last, messages.head? = some first →
        messages.getLast? = some last →
        routeFrom (get_workflow gradeLLM) "retrieve" messages
          = some (if gradeLLM.binary_score first.content last.content = "yes"
                  then "generate" else "rewrite")) := by
  refine ⟨rfl, rfl, ?_, ?_⟩
  · intro messages last hlast
    have hfind : (get_workflow gradeLLM).conditional_edges.find?
        (fun ce => ce.source == "agent")
        = some ⟨"agent", tools_condition, some [("tools", "retrieve"), (END, END)]⟩ :=
      rfl
    rw [routeFrom, hfind]
    dsimp only
    rw [tools_condition, hlast]
    dsimp only
    by_cases htc : last.tool_calls = []
    · rw [if_neg (fun hne => hne htc), if_neg (fun hne => hne htc)]
      rfl
    · rw [if_pos htc, if_pos htc]
      rfl
  · intro messages first last hfirst hlast
    have hfind : (get_workflow gradeLLM).conditional_edges.find?
        (fun ce => ce.source == "retrieve")
        = some ⟨"retrieve", gradeDocuments gradeLLM, none⟩ := rfl
    rw [routeFrom, hfind]
    dsimp only
    rw [gradeDocuments, hfirst, hlast]
    rfl

/-- Witness for C1: on a concrete state whose last message carries a tool
call, the agent node routes to retrieve, and on a concrete retrieved state
the always-yes grader routes retrieve to generate. -/
theorem get_workflow_spec_witness :
    routeFrom (get_workflow gradeYesLLM) "agent"
        [{ id := "1", content := "q", tool_calls := ["retrieve_court_decision_document_summary"] }]
      = some "retrieve"
    ∧ routeFrom (get_workflow gradeYesLLM) "retrieve"
        [{ id := "1", content := "q" }, { id := "2", content := "docs" }]
      = some "generate" := by
  constructor
  · have h := (get_workflow_spec gradeYesLLM).2.2.1
      [{ id := "1", content := "q", tool_calls := ["retrieve_court_decision_document_summary"] }]
      { id := "1", content := "q", tool_calls := ["retrieve_court_decision_document_summary"] }
      rfl
    rw [h]
    rfl
  · have h := (get_workflow_spec gradeYesLLM).2.2.2
      [{ id := "1", content := "q" }, { id := "2", content := "docs" }]
      { id := "1", content := "q" } { id := "2", content := "docs" } rfl rfl
    rw [h]
    rfl

/-- C10: the generated message carries the model's court_document_sources
under the references keyword argument; with a non-empty source list the
content is the model response followed by the Referensi section listing the
sources, and with an empty list the content is exactly the model response. -/
theorem generate_spec (result : AgentResponse) :
    lookupKwarg (generate result).additional_kwargs "references"
        = some result.court_document_sources
    ∧ (result.court_document_sources ≠ [] →
        (generate result).content
          = result.response ++ "\n\nReferensi:\n\n"
              ++ pyListRepr result.court_document_sources)
    ∧ (result.court_document_sources = [] →
        (generate result).content = result.response) := by
  refine ⟨rfl, fun hne => ?_, fun hemp => ?_⟩
  · rw [generate]
    dsimp only
    rw [if_pos hne]
  · rw [generate]
    dsimp only
    rw [if_neg (fun hcon => hcon hemp)]

/-- Witness for C10: at a concrete structured output with one source the
content carries the Referensi section, and at one with no sources the
content equals the response. -/
theorem generate_spec_witness :
    (generate { response := "jawaban", court_document_sources := ["123/K/2020"] }).content
        = "jawaban" ++ "\n\nReferensi:\n\n" ++ pyListRepr ["123/K/2020"]
    ∧ (generate { response := "jawaban", court_document_sources := [] }).content
        = "jawaban" :=
  ⟨(generate_spec { response := "jawaban", court_document_sources := ["123/K/2020"] }).2.1
      (by decide),
   (generate_spec { response := "jawaban", court_document_sources := [] }).2.2 rfl⟩

/-- The retry driver never goes past attempt five and never below the
attempt it started at. -/
theorem retryLoop_attempt_bounds {α : Type} (outcome : Nat → Except LLMExc α) :
    ∀ attempt, attempt ≤ 5 →
      attempt ≤ (retryLoop outcome attempt).2 ∧ (retryLoop outcome attempt).2 ≤ 5 := by
  intro attempt
  induction attempt using retryLoop.induct outcome with
  | case1 a v hv =>
    intro ha
    rw [retryLoop, hv]
    exact ⟨Nat.le_refl a, ha⟩
  | case2 a e he h ih =>
    intro _
    rw [retryLoop, he]
    dsimp only
    rw [dif_pos h]
    have := ih h.2
    exact ⟨Nat.le_trans (Nat.le_succ a) this.1, this.2⟩
  | case3 a e he h =>
    intro ha
    rw [retryLoop, he]
    dsimp only
    rw [dif_neg h]
    exact ⟨Nat.le_refl a, ha⟩

/-- Every attempt strictly before the one the driver stopped at failed with
a retryable exception. -/
theorem retryLoop_earlier_retryable {α : Type} (outcome : Nat → Except LLMExc α) :
    ∀ attempt n, attempt ≤ n → n < (retryLoop outcome attempt).2 →
      ∃ e, outcome n = .error e ∧ retryableExc e = true := by
  intro attempt
  induction attempt using retryLoop.induct outcome with
  | case1 a v hv =>
    intro n han hn
    rw [retryLoop, hv] at hn
    exact absurd hn (Nat.not_lt.mpr han)
  | case2 a e he h ih =>
    intro n han hn
    rw [retryLoop, he] at hn
    dsimp only at hn
    rw [dif_pos h] at hn
    rcases Nat.eq_or_lt_of_le han with heq | hlt
    · exact ⟨e, heq ▸ he, h.1⟩
    · exact ih n hlt hn
  | case3 a e he h =>
    intro n han hn
    rw [retryLoop, he] at hn
    dsimp only at hn
    rw [dif_neg h] at hn
    exact absurd hn (Nat.not_lt.mpr han)

/-- If every attempt up to the fifth fails with a retryable exception, the
driver stops at attempt five and re-raises that attempt's exception. -/
theorem retryLoop_exhausted {α : Type} (outcome : Nat → Except LLMExc α) :
    ∀ attempt, attempt ≤ 5 →
      (∀ n, attempt ≤ n → n ≤ 5 → ∃ e, outcome n = .error e ∧ retryableExc e = true) →
      retryLoop outcome attempt = (outcome 5, 5) := by
  intro attempt
  induction attempt using retryLoop.induct outcome with
  | case1 a v hv =>
    intro ha hall
    rcases hall a (Nat.le_refl a) ha with ⟨e, he, _⟩
    rw [hv] at he
    exact absurd he (by simp)
  | case2 a e he h ih =>
    intro ha hall
    rw [retryLoop, he]
    dsimp only
    rw [dif_pos h]
    exact ih h.2 (fun n hn h5 => hall n (Nat.le_trans (Nat.le_succ a) hn) h5)
  | case3 a e he h =>
    intro ha hall
    rw [retryLoop, he]
    dsimp only
    rw [dif_neg h]
    rcases Nat.lt_or_ge a 5 with hlt | hge
    · rcases hall a (Nat.le_refl a) ha with ⟨e2, he2, hr2⟩
      rw [he] at he2
      have heq : e = e2 := Except.error.inj he2
      rw [← heq] at hr2
      exact absurd ⟨hr2, hlt⟩ h
    · have h5 : a = 5 := Nat.le_antisymm ha hge
      subst h5
      rw [he]

/-- C3: call_model stops after at most five attempts; every retried attempt
failed with one of the five retryable litellm exception types; a
non-retryable exception on the first attempt propagates immediately,
stopping at attempt one; when all five attempts fail with retryable
exceptions the fifth attempt's exception is re-raised; and every configured
backoff wait lies between five and ten seconds. -/
theorem call_model_retry_spec {α : Type} (outcome : Nat → Except LLMExc α) :
    (1 ≤ callModelAttempts outcome ∧ callModelAttempts outcome ≤ 5)
    ∧ (∀ n, 1 ≤ n → n < callModelAttempts outcome →
        ∃ e, outcome n = .error e ∧ retryableExc e = true)
    ∧ (∀ e, outcome 1 = .error e → retryableExc e = false →
        call_model outcome = .error e ∧ callModelAttempts outcome = 1)
    ∧ ((∀ n, 1 ≤ n → n ≤ 5 → ∃ e, outcome n = .error e ∧ retryableExc e = true) →
        call_model outcome = outcome 5 ∧ callModelAttempts outcome = 5)
    ∧ (∀ attempt, 5 ≤ callModelWait attempt ∧ callModelWait attempt ≤ 10) := by
  refine ⟨?_, ?_, ?_, ?_, ?_⟩
  · exact retryLoop_attempt_bounds outcome 1 (by decide)
  · exact retryLoop_earlier_retryable outcome 1
  · intro e he hr
    have : retryLoop outcome 1 = (.error e, 1) := by
      rw [retryLoop, he]
      dsimp only
      rw [dif_neg]
      intro hcon
      rw [hr] at hcon
      exact absurd hcon.1 (by decide)
    exact ⟨congrArg Prod.fst this, congrArg Prod.snd this⟩
  · intro hall
    have := retryLoop_exhausted outcome 1 (by decide) hall
    exact ⟨congrArg Prod.fst this, congrArg Prod.snd this⟩
  · intro attempt
    refine ⟨Nat.le_max_left 5 _, ?_⟩
    exact max_le (by decide) (Nat.le_trans (Nat.min_le_right _ 10) (Nat.le_refl 10))

/-- Witness for C3: a call that always raises Timeout is retried to the
fifth attempt and re-raises Timeout, while a call raising a non-retryable
exception stops immediately on the first attempt. -/
theorem call_model_retry_spec_witness :
    (call_model (fun _ => (.error .timeout : Except LLMExc Nat)) = .error .timeout
      ∧ callModelAttempts (fun _ => (.error .timeout : Except LLMExc Nat)) = 5)
    ∧ (call_model (fun _ => (.error (.otherExc "ValueError") : Except LLMExc Nat))
          = .error (.otherExc "ValueError")
      ∧ callModelAttempts
          (fun _ => (.error (.otherExc "ValueError") : Except LLMExc Nat)) = 1) :=
  ⟨(call_model_retry_spec (fun _ => (.error .timeout : Except LLMExc Nat))).2.2.2.1
      (fun _ _ _ => ⟨.timeout, rfl, rfl⟩),
   (call_model_retry_spec
      (fun _ => (.error (.otherExc "ValueError") : Except LLMExc Nat))).2.2.1
      (.otherExc "ValueError") rfl rfl⟩

/-- When the update messages carry fresh, pairwise distinct ids, the reducer
appends them all and drops or replaces nothing. -/
theorem add_messages_append (old new : List Msg)
    (hdisj : ∀ m ∈ new, ∀ x ∈ old, x.id ≠ m.id)
    (hnodup : (new.map (fun m => m.id)).Nodup) :
    add_messages old new = old ++ new := by
  induction new generalizing old with
  | nil => simp [add_messages]
  | cons m rest ih =>
    rw [List.map_cons] at hnodup
    have hn := List.nodup_cons.mp hnodup
    have hany : old.any (fun x => x.id == m.id) = false := by
      rw [List.any_eq_false]
      intro x hx
      simp only [beq_iff_eq]
      exact hdisj m (List.mem_cons_self m rest) x hx
    have hstep : upsertMessage old m = old ++ [m] := by
      rw [upsertMessage, hany]
      simp
    rw [add_messages, List.foldl_cons, hstep]
    have hdisj2 : ∀ m2 ∈ rest, ∀ x ∈ old ++ [m], x.id ≠ m2.id := by
      intro m2 hm2 x hx
      rcases List.mem_append.mp hx with hold | hm
      · exact hdisj m2 (List.mem_cons_of_mem m hm2) x hold
      · have hxm : x = m := List.mem_singleton.mp hm
        subst hxm
        intro heq
        exact hn.1 (List.mem_map.mpr ⟨m2, hm2, heq.symm⟩)
    have := ih (old ++ [m]) hdisj2 hn.2
    rw [add_messages] at this
    rw [this, List.append_assoc]
    rfl

/-- C7: across two successive invocations on the same thread whose added
messages carry fresh, pairwise distinct ids, the first invocation's history
is the prior history followed by its new messages, and the second
invocation sees every message of the first followed by its own new
messages; nothing is replaced or dropped between turns. -/
theorem thread_history_appends (cps : Checkpoints) (thread_id : String)
    (new1 new2 : List Msg)
    (hd1 : ∀ m ∈ new1, ∀ x ∈ cps thread_id, x.id ≠ m.id)
    (hn1 : (new1.map (fun m => m.id)).Nodup)
    (hd2 : ∀ m ∈ new2, ∀ x ∈ (invokeThread cps thread_id new1).2, x.id ≠ m.id)
    (hn2 : (new2.map (fun m => m.id)).Nodup) :
    (invokeThread cps thread_id new1).2 = cps thread_id ++ new1
    ∧ (invokeThread (invokeThread cps thread_id new1).1 thread_id new2).2
        = (invokeThread cps thread_id new1).2 ++ new2 := by
  have hload : (invokeThread cps thread_id new1).1 thread_id
      = (invokeThread cps thread_id new1).2 := by
    simp [invokeThread, saveThread]
  constructor
  · exact add_messages_append (cps thread_id) new1 hd1 hn1
  · show add_messages ((invokeThread cps thread_id new1).1 thread_id) new2 = _
    rw [hload]
    exact add_messages_append _ new2 hd2 hn2

/-- Witness for C7: two concrete turns on one thread of a fresh
checkpointer; the second turn's history is the first turn's history
followed by the second turn's messages. -/
theorem thread_history_appends_witness :
    (invokeThread emptyCheckpoints "thread-1" [{ id := "u1", content := "q1" }]).2
        = [{ id := "u1", content := "q1" }]
    ∧ (invokeThread
        (invokeThread emptyCheckpoints "thread-1" [{ id := "u1", content := "q1" }]).1
        "thread-1" [{ id := "u2", content := "q2" }]).2
        = (invokeThread emptyCheckpoints "thread-1" [{ id := "u1", content := "q1" }]).2
            ++ [{ id := "u2", content := "q2" }] := by
  have h := thread_history_appends emptyCheckpoints "thread-1"
    [{ id := "u1", content := "q1" }] [{ id := "u2", content := "q2" }]
    (by intro m hm x hx; simp [emptyCheckpoints] at hx)
    (by decide)
    (by
      intro m hm x hx
      have h1 : (invokeThread emptyCheckpoints "thread-1"
          [{ id := "u1", content := "q1" }]).2
          = [{ id := "u1", content := "q1" }] := rfl
      rw [h1] at hx
      have hxx : x = { id := "u1", content := "q1" } := List.mem_singleton.mp hx
      have hmm : m = { id := "u2", content := "q2" } := List.mem_singleton.mp hm
      subst hxx; subst hmm
      decide)
    (by decide)
  exact ⟨h.1, h.2⟩

/-- C8: for every non-empty final graph state, the endpoint answers with the
content of the last message, with the references keyword argument of that
message when present and the empty list otherwise. -/
theorem send_message_spec (finalMessages : List Msg) (h : finalMessages ≠ []) :
    (∀ refs, lookupKwarg (finalMessages.getLast h).additional_kwargs "references"
        = some refs →
      send_message finalMessages
        = some { response := (finalMessages.getLast h).content, references := refs })
    ∧ (lookupKwarg (finalMessages.getLast h).additional_kwargs "references" = none →
      send_message finalMessages
        = some { response := (finalMessages.getLast h).content, references := [] }) := by
  have hlast : finalMessages.getLast? = some (finalMessages.getLast h) :=
    List.getLast?_eq_getLast finalMessages h
  constructor
  · intro refs hrefs
    rw [send_message, hlast]
    dsimp only
    rw [hrefs]
  · intro hnone
    rw [send_message, hlast]
    dsimp only
    rw [hnone]

/-- Witness for C8: a concrete final state whose last message carries a
references entry yields that list, and one without the key yields the empty
list. -/
theorem send_message_spec_witness :
    send_message [refMsg]
      = some { response := "jawaban", references := ["123/K/2020"] }
    ∧ send_message [{ id := "a2", content := "halo" }]
      = some { response := "halo", references := [] } :=
  ⟨(send_message_spec [refMsg] (by decide)).1 ["123/K/2020"] rfl,
   (send_message_spec [{ id := "a2", content := "halo" }] (by decide)).2 rfl⟩

/-- C4 (code bug): with the default limit of 60 calls per minute, the first
60 requests of a minute are forwarded; the 61st request of that minute hits
the rejection branch, which raises NameError because Response is not
imported in app.py, instead of returning the claimed 429 reply; and after
the minute changes the counter restarts, so the next request is forwarded
again. -/
theorem rateLimit_61st_request_raises :
    (runRequests 60 emptyRequestCounts "203.0.113.7"
        (List.replicate 61 0 ++ [1])).2
      = List.replicate 60 DispatchOutcome.forwarded
          ++ [DispatchOutcome.nameErrorResponseUndefined,
              DispatchOutcome.forwarded] := by
  decide

/-- When every case of a page has a non-null summary_formatted, processing
the page raises nothing and upserts exactly the chunk documents of its
cases in order. -/
theorem processPage_ok (split : String → List String) :
    ∀ page : List CaseRow, (∀ c ∈ page, c.summary_formatted.isSome) →
      processPage split page = .ok (page.flatMap (chunkDocs split)) := by
  intro page
  induction page with
  | nil => intro _; simp [processPage]
  | cons c rest ih =>
    intro hall
    have hc := hall c (List.mem_cons_self c rest)
    rcases Option.isSome_iff_exists.mp hc with ⟨text, htext⟩
    rw [processPage]
    have hcase : chunkCase split c
        = .ok ((split text).map (fun t =>
            { page_content := t, decision_number := c.decision_number,
              full_summary := text })) := by
      rw [chunkCase, htext]
    have hdocs : chunkDocs split c
        = (split text).map (fun t =>
            { page_content := t, decision_number := c.decision_number,
              full_summary := text }) := by
      rw [chunkDocs, htext]
    rw [hcase]
    dsimp only
    rw [ih (fun c2 h2 => hall c2 (List.mem_cons_of_mem c h2))]
    dsimp only
    rw [List.flatMap_cons, hdocs]

/-- The pagination loop, started at any offset over a table whose remaining
filtered rows all carry a non-null summary_formatted, terminates at the
first empty page having counted every remaining filtered row exactly once
and upserted exactly their chunk documents in order. -/
theorem indexLoop_spec (split : String → List String) (table : List CaseRow) :
    ∀ offset limit indexed_count acc, 0 < limit →
      (∀ c ∈ (casesFilter table).drop offset, c.summary_formatted.isSome) →
      indexLoop split table offset limit indexed_count acc
        = .ok (indexed_count + ((casesFilter table).drop offset).length,
               acc ++ ((casesFilter table).drop offset).flatMap (chunkDocs split)) := by
  intro offset limit indexed_count acc
  induction offset, limit, indexed_count, acc using indexLoop.induct split table with
  | case1 offset limit indexed_count acc hempty =>
    intro hlim hall
    rw [indexLoop, dif_pos hempty]
    rw [get_paged_docs] at hempty
    have hdrop : (casesFilter table).drop offset = [] := by
      rcases List.take_eq_nil_iff.mp hempty with h0 | hnil
      · exact absurd h0 (Nat.pos_iff_ne_zero.mp hlim)
      · exact hnil
    rw [hdrop]
    simp
  | case2 offset limit indexed_count acc hne e herr =>
    intro hlim hall
    have hsub : ∀ c ∈ get_paged_docs table offset limit, c.summary_formatted.isSome := by
      intro c hc
      exact hall c (List.take_subset _ _ hc)
    rw [processPage_ok split _ hsub] at herr
    exact absurd herr (by simp)
  | case3 offset limit indexed_count acc hne docs hok ih =>
    intro hlim hall
    rw [indexLoop, dif_neg hne]
    rw [hok]
    dsimp only
    have hsub : ∀ c ∈ get_paged_docs table offset limit, c.summary_formatted.isSome := by
      intro c hc
      exact hall c (List.take_subset _ _ hc)
    have hdocs : docs = (get_paged_docs table offset limit).flatMap (chunkDocs split) := by
      have := processPage_ok split _ hsub
      rw [hok] at this
      exact Except.ok.inj this
    have hall2 : ∀ c ∈ (casesFilter table).drop (offset + limit),
        c.summary_formatted.isSome := by
      intro c hc
      apply hall c
      rw [← List.drop_drop] at hc
      exact List.drop_subset _ _ hc
    rw [ih hlim hall2]
    have hsplit : (casesFilter table).drop offset
        = get_paged_docs table offset limit ++ (casesFilter table).drop (offset + limit) := by
      rw [get_paged_docs, ← List.drop_drop]
      exact (List.take_append_drop limit ((casesFilter table).drop offset)).symm
    rw [hsplit, hdocs]
    simp [List.flatMap_append, Nat.add_assoc, List.append_assoc]

/-- C6: over every table whose selected rows all have a non-null
summary_formatted, the indexer, paging with the fixed page size 5 from
offset 0 and advancing the offset by the page size per non-empty page,
terminates at the first empty page with indexed_count equal to the total
number of rows fetched, having upserted exactly one document per text chunk
per fetched case; and each case's documents carry its decision_number and
full formatted summary as metadata. -/
theorem indexMain_spec (split : String → List String) (table : List CaseRow)
    (hall : ∀ c ∈ casesFilter table, c.summary_formatted.isSome) :
    indexMain split table
      = .ok ((casesFilter table).length,
             (casesFilter table).flatMap (chunkDocs split))
    ∧ ∀ c ∈ casesFilter table, ∀ text, c.summary_formatted = some text →
        chunkDocs split c
          = (split text).map (fun t =>
              { page_content := t, decision_number := c.decision_number,
                full_summary := text }) := by
  constructor
  · have h := indexLoop_spec split table 0 5 0 [] (by decide)
      (by simpa using hall)
    rw [indexMain, h]
    simp
  · intro c _ text htext
    rw [chunkDocs, htext]

/-- Witness for C6: on the concrete six-row table the indexer counts all six
rows across both pages and upserts their chunk documents. -/
theorem indexMain_spec_witness :
    indexMain (fun s => [s]) witnessTable
      = .ok (6, witnessTable.flatMap (chunkDocs (fun s => [s]))) := by
  have h := indexMain_spec (fun s => [s]) witnessTable (by decide)
  rw [h.1]
  rfl

/-- C5 (code bug): get_paged_docs filters on summary_formatted_en, not on
the field that is chunked, so it returns a row whose summary_formatted is
null, and main passes that null into the text splitter, which raises
TypeError instead of chunking. -/
theorem get_paged_docs_null_chunk_field :
    get_paged_docs [c5Row] 0 5 = [c5Row]
    ∧ c5Row.summary_formatted = none
    ∧ indexMain (fun s => [s]) [c5Row]
        = .error "TypeError: split_text received None" := by
  refine ⟨by decide, rfl, ?_⟩
  rw [indexMain, indexLoop]
  rw [dif_neg (by decide : ¬get_paged_docs [c5Row] 0 5 = [])]
  have h : processPage (fun s => [s]) (get_paged_docs [c5Row] 0 5)
      = .error "TypeError: split_text received None" := by rfl
  rw [h]

end SCAgent
